import Mathlib

set_option maxRecDepth 8000

/-! Shallow embedding of the resilient analysis pipeline of the
MedicalTranscriptsSPCS repository (src/src/connection_helper.py and the
Streamlit pages that call it).  Python strings are modelled as `List Char`,
Python JSON values (dict/list/str/number/bool/None) as the inductive `JValue`,
numbers as exact rationals (Python's int/float distinction is collapsed;
non-finite float literals are outside the model), and raised exceptions as
`Except Unit` or `Option` results. -/

abbrev Chars := List Char

/-- Backtick character (fenced-block delimiter of the response regex). -/
def btC : Char := Char.ofNat 96

/-- Apostrophe character (the single quote replaced by `parse_json_safely`). -/
def aposC : Char := Char.ofNat 39

/-- Model of a parsed Python JSON value, as produced by `json.loads`. -/
inductive JValue : Type
  | jnull : JValue
  | jbool : Bool → JValue
  | jnum : ℚ → JValue
  | jstr : Chars → JValue
  | jarr : List JValue → JValue
  | jobj : List (Chars × JValue) → JValue

open JValue

/-- Pointwise Boolean equality of lists with a given element test. -/
def beqListWith (f : α → α → Bool) : List α → List α → Bool
  | [], [] => true
  | x :: xs, y :: ys => f x y && beqListWith f xs ys
  | _, _ => false

/-- Pointwise Boolean equality of key/value lists with a given value test. -/
def beqPairsWith (f : JValue → JValue → Bool) :
    List (Chars × JValue) → List (Chars × JValue) → Bool
  | [], [] => true
  | (k, v) :: xs, (k2, v2) :: ys => k == k2 && f v v2 && beqPairsWith f xs ys
  | _, _ => false

/-- Fuel-indexed Boolean equality on `JValue` (the fuel only has to dominate
the nesting depth of the first argument). -/
def beqJ : ℕ → JValue → JValue → Bool
  | 0, _, _ => false
  | fuel + 1, a, b =>
    match a, b with
    | jnull, jnull => true
    | jbool x, jbool y => x == y
    | jnum x, jnum y => x == y
    | jstr x, jstr y => x == y
    | jarr xs, jarr ys => beqListWith (beqJ fuel) xs ys
    | jobj xs, jobj ys => beqPairsWith (beqJ fuel) xs ys
    | _, _ => false

theorem beqListWith_iff (f : α → α → Bool) (xs ys : List α)
    (h : ∀ x ∈ xs, ∀ y, f x y = true ↔ x = y) :
    beqListWith f xs ys = true ↔ xs = ys := by
  induction xs generalizing ys with
  | nil => cases ys <;> simp [beqListWith]
  | cons x xs ih =>
    cases ys with
    | nil => simp [beqListWith]
    | cons y ys =>
      simp only [beqListWith, Bool.and_eq_true, List.cons.injEq]
      rw [h x (by simp) y, ih ys (fun z hz => h z (by simp [hz]))]

theorem beqPairsWith_iff (f : JValue → JValue → Bool)
    (xs ys : List (Chars × JValue))
    (h : ∀ p ∈ xs, ∀ w, f p.2 w = true ↔ p.2 = w) :
    beqPairsWith f xs ys = true ↔ xs = ys := by
  induction xs generalizing ys with
  | nil => cases ys <;> simp [beqPairsWith]
  | cons x xs ih =>
    obtain ⟨k, v⟩ := x
    cases ys with
    | nil => simp [beqPairsWith]
    | cons y ys =>
      obtain ⟨k2, v2⟩ := y
      simp only [beqPairsWith, Bool.and_eq_true, List.cons.injEq, Prod.mk.injEq,
        beq_iff_eq]
      rw [h (k, v) (by simp) v2, ih ys (fun z hz => h z (by simp [hz]))]

mutual

/-- Executable size of a `JValue` (one unit per constructor level). -/
def jsize : JValue → ℕ
  | jarr xs => 1 + jsizeArr xs
  | jobj fs => 1 + jsizeFields fs
  | _ => 1

def jsizeArr : List JValue → ℕ
  | [] => 0
  | x :: xs => jsize x + jsizeArr xs

def jsizeFields : List (Chars × JValue) → ℕ
  | [] => 0
  | (_, v) :: xs => jsize v + jsizeFields xs

end

theorem jsize_pos (a : JValue) : 1 ≤ jsize a := by
  cases a <;> simp [jsize]

theorem jsize_le_of_mem_arr (xs : List JValue) :
    ∀ x ∈ xs, jsize x ≤ jsizeArr xs := by
  induction xs with
  | nil => intro x hx; cases hx
  | cons y ys ih =>
    intro x hx
    rw [List.mem_cons] at hx
    rcases hx with rfl | hx
    · simp only [jsizeArr]
      omega
    · have := ih x hx
      simp only [jsizeArr]
      omega

theorem jsize_le_of_mem_fields (fs : List (Chars × JValue)) :
    ∀ p ∈ fs, jsize p.2 ≤ jsizeFields fs := by
  induction fs with
  | nil => intro p hp; cases hp
  | cons y ys ih =>
    obtain ⟨k, v⟩ := y
    intro p hp
    rw [List.mem_cons] at hp
    rcases hp with rfl | hp
    · simp only [jsizeFields]
      omega
    · have := ih p hp
      simp only [jsizeFields]
      omega

theorem beqJ_iff : ∀ (fuel : ℕ) (a b : JValue), jsize a ≤ fuel →
    (beqJ fuel a b = true ↔ a = b) := by
  intro fuel
  induction fuel with
  | zero =>
    intro a b ha
    exact absurd (lt_of_lt_of_le (jsize_pos a) ha) (by omega)
  | succ fuel ih =>
    intro a b ha
    cases a with
    | jnull => cases b <;> simp [beqJ]
    | jbool x => cases b <;> simp [beqJ]
    | jnum x => cases b <;> simp [beqJ]
    | jstr x => cases b <;> simp [beqJ]
    | jarr xs =>
      cases b with
      | jarr ys =>
        simp only [beqJ, jarr.injEq]
        refine beqListWith_iff _ _ _ (fun x hx y => ih x y ?_)
        have h1 := jsize_le_of_mem_arr xs x hx
        simp only [jsize] at ha
        omega
      | jnull => simp [beqJ]
      | jbool y => simp [beqJ]
      | jnum y => simp [beqJ]
      | jstr y => simp [beqJ]
      | jobj ys => simp [beqJ]
    | jobj xs =>
      cases b with
      | jobj ys =>
        simp only [beqJ, jobj.injEq]
        refine beqPairsWith_iff _ _ _ (fun p hp w => ih p.2 w ?_)
        have h1 := jsize_le_of_mem_fields xs p hp
        simp only [jsize] at ha
        omega
      | jnull => simp [beqJ]
      | jbool y => simp [beqJ]
      | jnum y => simp [beqJ]
      | jstr y => simp [beqJ]
      | jarr ys => simp [beqJ]

instance : DecidableEq JValue := fun a b =>
  decidable_of_iff (beqJ (jsize a) a b = true) (beqJ_iff (jsize a) a b le_rfl)

/-- Python truthiness of a JSON value (`bool(x)`): None, False, 0, "", [], {}
are falsy, everything else truthy. -/
def jTruthy : JValue → Bool
  | jnull => false
  | jbool b => b
  | jnum q => decide (q ≠ 0)
  | jstr s => !s.isEmpty
  | jarr xs => !xs.isEmpty
  | jobj fs => !fs.isEmpty

/-- `isinstance(x, dict) and x` test used by `parse_comprehensive_response`. -/
def isNonEmptyObj : JValue → Bool
  | jobj fs => !fs.isEmpty
  | _ => false

/-- JSON whitespace characters accepted by `json.loads` between tokens. -/
def jws (c : Char) : Bool := c = ' ' || c = '\t' || c = '\n' || c = '\r'

def skipWs (s : Chars) : Chars := s.dropWhile jws

def hexVal (c : Char) : Option ℕ :=
  if '0' ≤ c ∧ c ≤ '9' then some (c.toNat - 48)
  else if 'a' ≤ c ∧ c ≤ 'f' then some (c.toNat - 87)
  else if 'A' ≤ c ∧ c ≤ 'F' then some (c.toNat - 55)
  else none

/-- Body of a strict JSON string after the opening quote: returns the decoded
characters and the remainder after the closing quote.  Strict mode: raw
control characters below 0x20 are rejected; surrogate-pair recombination of
`\u` escapes is outside the model (each escape yields one code point). -/
def parseStrBody : ℕ → Chars → Option (Chars × Chars)
  | 0, _ => none
  | _ + 1, [] => none
  | fuel + 1, c :: rest =>
    if c = '"' then some ([], rest)
    else if c = '\\' then
      match rest with
      | [] => none
      | e :: rest2 =>
        if e = '"' then (parseStrBody fuel rest2).map (fun p => ('"' :: p.1, p.2))
        else if e = '\\' then (parseStrBody fuel rest2).map (fun p => ('\\' :: p.1, p.2))
        else if e = '/' then (parseStrBody fuel rest2).map (fun p => ('/' :: p.1, p.2))
        else if e = 'b' then (parseStrBody fuel rest2).map (fun p => ('\x08' :: p.1, p.2))
        else if e = 'f' then (parseStrBody fuel rest2).map (fun p => ('\x0c' :: p.1, p.2))
        else if e = 'n' then (parseStrBody fuel rest2).map (fun p => ('\n' :: p.1, p.2))
        else if e = 'r' then (parseStrBody fuel rest2).map (fun p => ('\r' :: p.1, p.2))
        else if e = 't' then (parseStrBody fuel rest2).map (fun p => ('\t' :: p.1, p.2))
        else if e = 'u' then
          match rest2 with
          | h1 :: h2 :: h3 :: h4 :: rest3 =>
            match hexVal h1, hexVal h2, hexVal h3, hexVal h4 with
            | some a, some b, some cc, some d =>
              (parseStrBody fuel rest3).map
                (fun p => (Char.ofNat (((a * 16 + b) * 16 + cc) * 16 + d) :: p.1, p.2))
            | _, _, _, _ => none
          | _ => none
        else none
    else if c.toNat < 32 then none
    else (parseStrBody fuel rest).map (fun p => (c :: p.1, p.2))

def natOfDigits (ds : Chars) : ℕ := ds.foldl (fun a c => a * 10 + (c.toNat - 48)) 0

/-- Strict JSON number (`-? (0 | [1-9][0-9]*) (\.[0-9]+)? ([eE][-+]?[0-9]+)?`),
following the maximal-munch behaviour of Python's number regex: a dot or an
exponent marker not followed by digits is left unconsumed. -/
def parseNumber (s : Chars) : Option (ℚ × Chars) :=
  let (neg, s1) :=
    match s with
    | c :: r => if c = '-' then (true, r) else (false, s)
    | [] => (false, s)
  let ids := s1.takeWhile Char.isDigit
  let s2 := s1.dropWhile Char.isDigit
  if ids.isEmpty then none
  else if 1 < ids.length ∧ ids.head? = some '0' then none
  else
    let (fds, s3) :=
      match s2 with
      | '.' :: r =>
        let ds := r.takeWhile Char.isDigit
        if ds.isEmpty then (([] : Chars), s2) else (ds, r.dropWhile Char.isDigit)
      | _ => (([] : Chars), s2)
    let (eds, epos, s4) :=
      match s3 with
      | c :: r =>
        if c = 'e' ∨ c = 'E' then
          match r with
          | d :: r2 =>
            if d = '+' ∨ d = '-' then
              let ds := r2.takeWhile Char.isDigit
              if ds.isEmpty then (([] : Chars), true, s3)
              else (ds, d ≠ '-', r2.dropWhile Char.isDigit)
            else
              let ds := r.takeWhile Char.isDigit
              if ds.isEmpty then (([] : Chars), true, s3)
              else (ds, true, r.dropWhile Char.isDigit)
          | [] => (([] : Chars), true, s3)
        else (([] : Chars), true, s3)
      | [] => (([] : Chars), true, s3)
    let allDigits : ℕ := natOfDigits (ids ++ fds)
    let signedAll : ℤ := if neg then -(allDigits : ℤ) else (allDigits : ℤ)
    let e : ℤ := (if epos then (natOfDigits eds : ℤ) else -(natOfDigits eds : ℤ)) - fds.length
    if 0 ≤ e then some (mkRat (signedAll * 10 ^ e.toNat) 1, s4)
    else some (mkRat signedAll (10 ^ (-e).toNat), s4)

/-- Insertion into the model of a Python dict: an existing key is updated in
place (keeping its original position, as dicts do), a new key is appended. -/
def dictInsert (l : List (Chars × JValue)) (k : Chars) (v : JValue) :
    List (Chars × JValue) :=
  if l.any (fun p => p.1 = k) then l.map (fun p => if p.1 = k then (k, v) else p)
  else l ++ [(k, v)]

/-- Mode of the recursive-descent JSON parser. -/
inductive PMode : Type
  | value : PMode
  | members : List (Chars × JValue) → PMode
  | elems : List JValue → PMode

/-- Fuel-indexed core of the strict JSON parser modelling `json.loads`.  In
`members`/`elems` mode the input starts right at the first member/element
(the empty-container case is handled by `value` mode). -/
def parseCore : ℕ → PMode → Chars → Option (JValue × Chars)
  | 0, _, _ => none
  | fuel + 1, PMode.value, s =>
    match skipWs s with
    | [] => none
    | c :: rest =>
      if c = '{' then
        match skipWs rest with
        | '}' :: r2 => some (jobj [], r2)
        | r2 => parseCore fuel (PMode.members []) r2
      else if c = '[' then
        match skipWs rest with
        | ']' :: r2 => some (jarr [], r2)
        | r2 => parseCore fuel (PMode.elems []) r2
      else if c = '"' then
        (parseStrBody (rest.length + 1) rest).map (fun p => (jstr p.1, p.2))
      else if c = 't' then
        if rest.take 3 = ['r', 'u', 'e'] then some (jbool true, rest.drop 3) else none
      else if c = 'f' then
        if rest.take 4 = ['a', 'l', 's', 'e'] then some (jbool false, rest.drop 4) else none
      else if c = 'n' then
        if rest.take 3 = ['u', 'l', 'l'] then some (jnull, rest.drop 3) else none
      else if c = '-' ∨ c.isDigit then
        (parseNumber (c :: rest)).map (fun p => (jnum p.1, p.2))
      else none
  | fuel + 1, PMode.members acc, s =>
    match skipWs s with
    | '"' :: r =>
      match parseStrBody (r.length + 1) r with
      | none => none
      | some (key, r2) =>
        match skipWs r2 with
        | ':' :: r3 =>
          match parseCore fuel PMode.value r3 with
          | none => none
          | some (v, r4) =>
            match skipWs r4 with
            | ',' :: r5 => parseCore fuel (PMode.members (dictInsert acc key v)) r5
            | '}' :: r5 => some (jobj (dictInsert acc key v), r5)
            | _ => none
        | _ => none
    | _ => none
  | fuel + 1, PMode.elems acc, s =>
    match parseCore fuel PMode.value s with
    | none => none
    | some (v, r) =>
      match skipWs r with
      | ',' :: r2 => parseCore fuel (PMode.elems (acc ++ [v])) r2
      | ']' :: r2 => some (jarr (acc ++ [v]), r2)
      | _ => none

/-- Model of Python `json.loads` on a whole document: parse one value and
require only whitespace to remain.  `none` models a raised `JSONDecodeError`. -/
def jsonLoads (s : Chars) : Option JValue :=
  match parseCore (s.length + 2) PMode.value s with
  | some (v, r) => if (skipWs r).isEmpty then some v else none
  | none => none

/-- `parse_json_safely` (src/src/connection_helper.py): strict parse, then a
single lenient retry with every single quote replaced by a double quote,
returning `{}` (the default) on empty input or total failure. -/
def parse_json_safely (s : Chars) : JValue :=
  if s.isEmpty then jobj []
  else
    match jsonLoads s with
    | some v => v
    | none =>
      match jsonLoads (s.map (fun c => if c = aposC then '"' else c)) with
      | some v => v
      | none => jobj []

/-- ASCII whitespace class of the regex `\s` and of Python `str.strip`
(the further Unicode whitespace code points are outside the model). -/
def pyWs (c : Char) : Bool :=
  c = ' ' || c = '\t' || c = '\n' || c = '\r' || c = '\x0b' || c = '\x0c'

/-- Python `str.strip()`: remove whitespace from both ends. -/
def pyStrip (s : Chars) : Chars :=
  ((s.dropWhile pyWs).reverse.dropWhile pyWs).reverse

/-- Characters strictly before the first occurrence of three consecutive
backticks; `none` when there is no such occurrence. -/
def beforeFence : Chars → Option Chars
  | [] => none
  | c :: rest =>
    if c = btC ∧ rest.take 2 = [btC, btC] then some []
    else (beforeFence rest).map (c :: ·)

/-- Leftmost match of the fence regex of `parse_comprehensive_response`,
`(?:json)? \s* ([\s\S]*?)` between two triple-backtick fences, with the
IGNORECASE flag on the literal `json`: returns the captured group.  The
scan tries every start position from the left, exactly like the regex
engine. -/
def fenceCapture : Chars → Option Chars
  | [] => none
  | c :: rest =>
    if c = btC ∧ rest.take 2 = [btC, btC] then
      let r0 := rest.drop 2
      let r1 := if (r0.take 4).map Char.toLower = "json".data then r0.drop 4 else r0
      match beforeFence (r1.dropWhile pyWs) with
      | some cap => some cap
      | none => fenceCapture rest
    else fenceCapture rest

/-- Leftmost match of the greedy regex `\{[\s\S]*\}` (DOTALL): the span from
the first opening brace to the last closing brace after it. -/
def braceSpan (s : Chars) : Option Chars :=
  let t := s.dropWhile (· ≠ '{')
  if t.isEmpty then none
  else
    let u := (t.reverse.dropWhile (· ≠ '}')).reverse
    if u.isEmpty then none else some u

/-- `parse_comprehensive_response` (src/src/connection_helper.py): stage after
the fenced-block attempt — extract the largest brace-delimited span, parse it
strictly, and on failure retry through `parse_json_safely`, keeping that
result only when it is a non-empty dict; otherwise return `{}`. -/
def braceStage (response : Chars) : JValue :=
  match braceSpan response with
  | some s =>
    match jsonLoads s with
    | some v => v
    | none =>
      let p := parse_json_safely s
      if isNonEmptyObj p then p else jobj []
  | none => jobj []

/-- `parse_comprehensive_response` (src/src/connection_helper.py): first try
the content of a fenced code block (stripped) as JSON; if the fence is absent
or its content fails to parse, fall through to the brace-span stage. -/
def parse_comprehensive_response (response : Chars) : JValue :=
  match fenceCapture response with
  | some b =>
    match jsonLoads (pyStrip b) with
    | some v => v
    | none => braceStage response
  | none => braceStage response

/-- The characters of the `patient_notes` replacement field after its
opening brace. -/
def phSuffix : Chars :=
  ['p', 'a', 't', 'i', 'e', 'n', 't', '_', 'n', 'o', 't', 'e', 's', '}']

/-- Scanner of Python `str.format` specialized to the comprehensive-analysis
template, whose only replacement field is `patient_notes`: `{{` and `}}`
unescape to single braces, `{patient_notes}` is replaced by the argument
(inserted verbatim, never re-scanned), any other field or a lone brace
raises (KeyError / ValueError), modelled as `none`.  The first argument is a
skip counter used to consume the field name after a substitution, keeping
the recursion structural. -/
def pyFormatS : ℕ → Chars → Chars → Option Chars
  | n + 1, _ :: rest, v => pyFormatS n rest v
  | _ + 1, [], _ => none
  | 0, [], _ => some []
  | 0, '{' :: '{' :: rest, v => (pyFormatS 0 rest v).map ('{' :: ·)
  | 0, '{' :: rest, v =>
    if phSuffix.isPrefixOf rest then (pyFormatS 14 rest v).map (v ++ ·) else none
  | 0, '}' :: '}' :: rest, v => (pyFormatS 0 rest v).map ('}' :: ·)
  | 0, '}' :: _, _ => none
  | 0, c :: rest, v => (pyFormatS 0 rest v).map (c :: ·)

/-- Model of Python `str.format` on the comprehensive-analysis template. -/
def pyFormat (tmpl v : Chars) : Option Chars := pyFormatS 0 tmpl v

/-- Brace-unescaping of a template fragment that contains no replacement
field: `{{`/`}}` become single braces, any other brace fails. -/
def expandBraces : Chars → Option Chars
  | [] => some []
  | '{' :: '{' :: rest => (expandBraces rest).map ('{' :: ·)
  | '{' :: _ => none
  | '}' :: '}' :: rest => (expandBraces rest).map ('}' :: ·)
  | '}' :: _ => none
  | c :: rest => (expandBraces rest).map (c :: ·)

/-- The `{patient_notes}` replacement field of the template. -/
def placeholderTok : Chars :=
  ['{', 'p', 'a', 't', 'i', 'e', 'n', 't', '_', 'n', 'o', 't', 'e', 's', '}']

/-- Prompt rendering of `process_single_patient_comprehensive`:
`COMPREHENSIVE_ANALYSIS_PROMPT.format(patient_notes=patient_notes[:4000])` —
the notes are truncated to 4000 characters before substitution. -/
def renderComprehensivePrompt (tmpl notes : Chars) : Option Chars :=
  pyFormat tmpl (notes.take 4000)

/-- Fallback model choice of `process_single_patient_comprehensive`:
`"mistral-large" if model != "mistral-large" else "llama3.1-8b"`. -/
def alt_model (model : Chars) : Chars :=
  if model ≠ "mistral-large".data then "mistral-large".data else "llama3.1-8b".data

/-- The minimal degraded document built by the final-safety branch:
`{"clinical_summary": {"clinical_summary": text}}`. -/
def degradedDoc (t : Chars) : JValue :=
  jobj [("clinical_summary".data, jobj [("clinical_summary".data, jstr t)])]

/-- Python truthiness of an optional string (`None` and `""` are falsy). -/
def strTruthy : Option Chars → Bool
  | none => false
  | some s => !s.isEmpty

/-- `(raw_response or alt_response or "").strip()` of the final-safety
branch. -/
def degradedText (rawOpt altOpt : Option Chars) : Chars :=
  pyStrip (if strTruthy rawOpt then rawOpt.getD []
           else if strTruthy altOpt then altOpt.getD [] else [])

/-- `process_single_patient_comprehensive` (src/src/connection_helper.py).
The two `execute_cortex_complete` network calls are oracles: `.error` models
a raised exception, `.ok none` a SQL NULL response (Python `None`), `.ok
(some s)` a returned string.  The result pairs the returned document with
the list of models actually invoked, in call order.  The whole body sits in
`try/except` returning `{}`; the fallback invocation sits in an inner
`try/except Exception: pass`. -/
def process_single_patient_comprehensive (tmpl notes model : Chars)
    (primary fallbackCall : Except Unit (Option Chars)) : JValue × List Chars :=
  match renderComprehensivePrompt tmpl notes with
  | none => (jobj [], [])
  | some _ =>
    match primary with
    | .error _ => (jobj [], [model])
    | .ok rawOpt =>
      let parsed := parse_comprehensive_response (rawOpt.getD [])
      if jTruthy parsed then (parsed, [model])
      else
        let altOpt : Option Chars :=
          match fallbackCall with
          | .error _ => some []
          | .ok a => a
        let parsed2 :=
          match fallbackCall with
          | .error _ => parsed
          | .ok a => parse_comprehensive_response (a.getD [])
        if jTruthy parsed2 then (parsed2, [model, alt_model model])
        else
          let fbText := degradedText rawOpt altOpt
          if !fbText.isEmpty then
            (degradedDoc (fbText.take 1500), [model, alt_model model])
          else (parsed2, [model, alt_model model])

deriving instance DecidableEq for Except

/-- Shared value of a parsed decimal literal:
`sign * 0.<ids><fds> shifted`, computed with integer arithmetic only. -/
def ratOfParts (neg : Bool) (ids fds eds : Chars) (epos : Bool) : ℚ :=
  let allDigits : ℕ := natOfDigits (ids ++ fds)
  let signedAll : ℤ := if neg then -(allDigits : ℤ) else (allDigits : ℤ)
  let e : ℤ := (if epos then (natOfDigits eds : ℤ) else -(natOfDigits eds : ℤ)) - fds.length
  if 0 ≤ e then mkRat (signedAll * 10 ^ e.toNat) 1
  else mkRat signedAll (10 ^ (-e).toNat)

/-- Model of Python `float(str)` on finite decimal literals: optional
surrounding whitespace and sign, `digits[.digits]`, `.digits` or `digits.`,
optional exponent with mandatory digits; anything else (including the
non-finite literals `inf`/`nan` and underscore separators, which are outside
the model) raises `ValueError`, modelled as `none`. -/
def floatLit (s0 : Chars) : Option ℚ :=
  let s := pyStrip s0
  let (neg, s1) :=
    match s with
    | c :: r => if c = '-' then (true, r) else if c = '+' then (false, r) else (false, s)
    | [] => (false, s)
  let ids := s1.takeWhile Char.isDigit
  let s2 := s1.dropWhile Char.isDigit
  let (fds, s3) :=
    match s2 with
    | '.' :: r => (r.takeWhile Char.isDigit, r.dropWhile Char.isDigit)
    | _ => (([] : Chars), s2)
  if ids.isEmpty ∧ fds.isEmpty then none
  else
    match s3 with
    | [] => some (ratOfParts neg ids fds [] true)
    | c :: r =>
      if c = 'e' ∨ c = 'E' then
        let (epos, r2) :=
          match r with
          | d :: rr => if d = '-' then (false, rr) else if d = '+' then (true, rr) else (true, r)
          | [] => (true, r)
        let eds := r2.takeWhile Char.isDigit
        let s4 := r2.dropWhile Char.isDigit
        if eds.isEmpty ∨ !s4.isEmpty then none
        else some (ratOfParts neg ids fds eds epos)
      else none

/-- Model of Python `int(str)`: optional whitespace, sign and decimal digits. -/
def intLit (s0 : Chars) : Option ℤ :=
  let s := pyStrip s0
  let (neg, s1) :=
    match s with
    | c :: r => if c = '-' then (true, r) else if c = '+' then (false, r) else (false, s)
    | [] => (false, s)
  if s1.isEmpty ∨ !s1.all Char.isDigit then none
  else some (if neg then -(natOfDigits s1 : ℤ) else (natOfDigits s1 : ℤ))

/-- Model of Python `float(x)` on a JSON value; `none` models a raised
`TypeError`/`ValueError` (caught by the callers' `try/except`). -/
def pyFloat : JValue → Option ℚ
  | jnum q => some q
  | jbool b => some (if b then 1 else 0)
  | jstr s => floatLit s
  | _ => none

/-- Model of Python `int(x)` on a JSON value (truncation toward zero);
`none` models a raised `TypeError`/`ValueError`. -/
def pyInt : JValue → Option ℤ
  | jnum q => some (q.num.tdiv q.den)
  | jbool b => some (if b then 1 else 0)
  | jstr s => intLit s
  | _ => none

/-- `item.get(k)` on a parsed JSON dict.  A JSON `null` parses to Python
`None`, which `.get` also returns for a missing key, so both collapse to
`none`; a non-dict has no `.get` and yields `none` here (the callers only
reach it with dicts). -/
def dictGet (v : JValue) (k : Chars) : Option JValue :=
  match v with
  | jobj fs =>
    match fs.find? (fun p => p.1 == k) with
    | some (_, jnull) => none
    | some (_, w) => some w
    | none => none
  | _ => none

/-- Truthiness of an optional value, as used by Python's `or`. -/
def optTruthy : Option JValue → Bool
  | none => false
  | some v => jTruthy v

/-- Python `a or b`: `a` when truthy, otherwise `b` (even when `b` is
falsy — the last operand is returned as-is). -/
def pyOrO (a b : Option JValue) : Option JValue :=
  if optTruthy a then a else b

/-- The vendor-score lookup chain of the native search backend:
`item.get('score') or item.get('SCORE') or item.get('relevance') or
item.get('RELEVANCE')`. -/
def scoreChain (item : JValue) : Option JValue :=
  pyOrO (pyOrO (pyOrO (dictGet item "score".data) (dictGet item "SCORE".data))
      (dictGet item "relevance".data))
    (dictGet item "RELEVANCE".data)

/-- `rel_score = float(score_val) if score_val is not None else None`,
wrapped in `try/except` that maps a conversion error to `None`. -/
def relScoreOf (item : JValue) : Option ℚ :=
  match scoreChain item with
  | none => none
  | some v => pyFloat v

/-- The normalized search-result row schema shared by both backends:
PATIENT_ID, PATIENT_UID, PATIENT_TITLE, AGE, GENDER, RELEVANCE_SCORE. -/
structure SearchRow : Type where
  patientId : Option ℤ
  patientUid : Option JValue
  patientTitle : Option JValue
  age : Option ℚ
  gender : Option JValue
  relevanceScore : Option ℚ
deriving DecidableEq

/-- Row mapping of the native (Python API) backend for one result item:
`int(...)` on PATIENT_ID is unguarded, so its failure raises out of the
whole call; the AGE and score conversions are each wrapped in `try/except`.
A non-dict item (no `.get`) likewise raises. -/
def mapNativeItem (item : JValue) : Except Unit SearchRow :=
  match item with
  | jobj _ =>
    match dictGet item "PATIENT_ID".data with
    | none =>
      .ok { patientId := none, patientUid := dictGet item "PATIENT_UID".data,
            patientTitle := dictGet item "PATIENT_TITLE".data,
            age := (dictGet item "AGE".data).bind pyFloat,
            gender := dictGet item "GENDER".data,
            relevanceScore := relScoreOf item }
    | some v =>
      match pyInt v with
      | none => .error ()
      | some pid =>
        .ok { patientId := some pid, patientUid := dictGet item "PATIENT_UID".data,
              patientTitle := dictGet item "PATIENT_TITLE".data,
              age := (dictGet item "AGE".data).bind pyFloat,
              gender := dictGet item "GENDER".data,
              relevanceScore := relScoreOf item }
  | _ => .error ()

/-- `results = parsed.get('results', []) if isinstance(parsed, dict) else []`
followed by iteration: a missing key defaults to `[]`; a non-iterable value
(or an iterable of non-dicts) raises during the loop, except that iterating
an empty dict or empty string performs no iterations. -/
def nativeResults (parsed : JValue) : Except Unit (List JValue) :=
  match parsed with
  | jobj fs =>
    match fs.find? (fun p => p.1 == "results".data) with
    | none => .ok []
    | some (_, jarr xs) => .ok xs
    | some (_, jobj []) => .ok []
    | some (_, jstr []) => .ok []
    | some (_, _) => .error ()
  | _ => .ok []

/-- `SEARCH_PREVIEW`'s `LATERAL FLATTEN(input => raw.j:results)`: the
elements of an array value, the field values of an object value, and no rows
otherwise (FLATTEN of NULL or a scalar yields zero rows without OUTER). -/
def previewResults (j : JValue) : List JValue :=
  match j with
  | jobj fs =>
    match fs.find? (fun p => p.1 == "results".data) with
    | some (_, jarr xs) => xs
    | some (_, jobj g) => g.map (fun p => p.2)
    | _ => []
  | _ => []

/-- `TRY_TO_DOUBLE(TO_VARCHAR(x))`: numbers keep their value, numeric text
converts, everything else (including booleans' text form) yields NULL. -/
def tryToDouble : JValue → Option ℚ
  | jnum q => some q
  | jstr s => floatLit s
  | _ => none

/-- Variant path element access `x[0]`: NULL on a non-array or empty array. -/
def jIndex0 : JValue → Option JValue
  | jarr (x :: _) => some x
  | _ => none

/-- The AGE column of the preview SQL:
`COALESCE(TRY_TO_DOUBLE(..AGE[0][0]), TRY_TO_DOUBLE(..AGE[0]), TRY_TO_DOUBLE(..AGE))`. -/
def previewAge (ageField : Option JValue) : Option ℚ :=
  match ageField with
  | none => none
  | some a =>
    match ((jIndex0 a).bind jIndex0).bind tryToDouble with
    | some q => some q
    | none =>
      match (jIndex0 a).bind tryToDouble with
      | some q => some q
      | none => tryToDouble a

/-- `x::NUMBER` cast of an integral variant value (rounding of non-integral
numbers is outside the model). -/
def castNumber : JValue → Option ℤ
  | jnum q => if q.den = 1 then some q.num else none
  | jstr s => intLit s
  | _ => none

/-- `x::STRING` cast: strings pass through; the text rendering of other
scalars is outside the model. -/
def castString : JValue → Option JValue
  | jstr s => some (jstr s)
  | _ => none

/-- Row built by the preview-primitive SQL for one flattened element: every
column comes from the element's fields and RELEVANCE_SCORE is the literal
`NULL::FLOAT`. -/
def previewRow (item : JValue) : SearchRow :=
  { patientId := (dictGet item "PATIENT_ID".data).bind castNumber,
    patientUid := (dictGet item "PATIENT_UID".data).bind castString,
    patientTitle := (dictGet item "PATIENT_TITLE".data).bind castString,
    age := previewAge (dictGet item "AGE".data),
    gender := (dictGet item "GENDER".data).bind castString,
    relevanceScore := none }

/-- `query_cortex_search_service` (src/src/connection_helper.py): the backend
is chosen once by connection capability — `hasattr(conn, 'sql')` selects the
native Python-API backend, otherwise the `SEARCH_PREVIEW` SQL fallback runs.
`nativeResp`/`previewResp` are the oracles for the two network calls (the
parsed JSON of `resp.to_json()`, resp. of the preview blob); `.error` models
a raised exception.  The surrounding `try/except` re-raises (`raise`), so an
error in the chosen backend propagates to the caller. -/
def query_cortex_search_service (connHasSql : Bool)
    (nativeResp previewResp : Except Unit JValue) (limit : ℕ) :
    Except Unit (List SearchRow) :=
  if connHasSql then
    match nativeResp with
    | .error e => .error e
    | .ok parsed =>
      match nativeResults parsed with
      | .error e => .error e
      | .ok items => items.mapM mapNativeItem
  else
    match previewResp with
    | .error e => .error e
    | .ok j => .ok (((previewResults j).map previewRow).take limit)

/-- Control skeleton of `search_patients_cortex`
(src/src/pages/2_Clinical_Decision_Support.py): the whole Cortex path sits
in `try/except`; on any exception it falls back to `search_patients_basic`
(a SQL LIKE text search, whose rows are the `basicRows` oracle).  The
notes-preview merge and post-filter display glue on the success path are
elided. -/
def search_patients_cortex (connHasSql : Bool)
    (nativeResp previewResp : Except Unit JValue) (limit : ℕ)
    (basicRows : List SearchRow) : List SearchRow :=
  match query_cortex_search_service connHasSql nativeResp previewResp limit with
  | .ok rows => rows
  | .error _ => basicRows

/-- Key extraction of the similar-patients sort, `float(x[1])` with a
default for the proof statement (the guard ensures it is never used on a
non-convertible score). -/
def scoreKeyD (x : Chars × JValue) : ℚ := (pyFloat x.2).getD 0

/-- The similar-patients sort of `display_similar_patients`
(src/src/pages/2_Clinical_Decision_Support.py and the identical block in
3_Prompt_and_Model_Testing.py):
`similar_items.sort(key=lambda x: float(x[1]), reverse=True)` inside
`try/except (ValueError, TypeError): pass`.  CPython's `list.sort` computes
all keys before moving any element, so a key that raises leaves the list in
its original order; when all keys convert the sort is stable descending. -/
def sort_similar_items (items : List (Chars × JValue)) : List (Chars × JValue) :=
  if items.all (fun x => (pyFloat x.2).isSome) then
    items.mergeSort (fun a b => decide (scoreKeyD b ≤ scoreKeyD a))
  else items

/-- First-success choice between two strategy results. -/
def orO (a b : Option JValue) : Option JValue :=
  match a with
  | some v => some v
  | none => b

/-- Strategy 1 of the response parser: fenced-block content, stripped,
parsed strictly. -/
def strategyFence (r : Chars) : Option JValue :=
  (fenceCapture r).bind (fun b => jsonLoads (pyStrip b))

/-- Strategy 2 of the response parser: largest brace-delimited span, parsed
strictly. -/
def strategyBrace (r : Chars) : Option JValue :=
  (braceSpan r).bind jsonLoads

/-- Strategy 3 of the response parser: the lenient single-quote repair of
`parse_json_safely` applied to the brace span, accepted only when it yields
a non-empty dict. -/
def strategyLenient (r : Chars) : Option JValue :=
  (braceSpan r).bind (fun s =>
    let p := parse_json_safely s
    if isNonEmptyObj p then some p else none)

/-- Claim C1: `parse_comprehensive_response` applies its strategies in strict
order, stopping at the first success — fenced block first, then the largest
brace span strictly, then one lenient repair — and returns the empty document
when all fail; on the input `noise ```json\n{"a":1}\n``` trailing` it returns
`{"a":1}`, ignoring the surrounding prose. -/
theorem claim_c1 :
    (∀ r, parse_comprehensive_response r =
      (orO (orO (strategyFence r) (strategyBrace r)) (strategyLenient r)).getD (jobj []))
    ∧ parse_comprehensive_response "noise ```json\n\x7b\"a\":1\x7d\n``` trailing".data
        = jobj [("a".data, jnum 1)] := by
  constructor
  · intro r
    unfold parse_comprehensive_response braceStage strategyFence strategyBrace
      strategyLenient orO
    cases hf : fenceCapture r with
    | some b =>
      cases hl : jsonLoads (pyStrip b) with
      | some v => simp [hl]
      | none =>
        cases hb : braceSpan r with
        | some s =>
          cases hs : jsonLoads s with
          | some v => simp [hl, hs]
          | none =>
            by_cases hne : isNonEmptyObj (parse_json_safely s) = true <;>
              simp [hl, hs, hne]
        | none => simp [hl]
    | none =>
      cases hb : braceSpan r with
      | some s =>
        cases hs : jsonLoads s with
        | some v => simp [hs]
        | none =>
          by_cases hne : isNonEmptyObj (parse_json_safely s) = true <;>
            simp [hs, hne]
      | none => simp
  · decide

/-- Claim C6: on the single-quoted input `{'a': 1}` (no fenced block) the
brace span is the whole input, strict JSON parsing of it fails, and the
lenient repair of `parse_json_safely` (single quotes replaced by double
quotes) succeeds, so the parser returns `{"a":1}`. -/
theorem claim_c6 :
    braceSpan ('\x7b' :: aposC :: 'a' :: aposC :: ':' :: ' ' :: '1' :: '\x7d' :: [])
        = some ('\x7b' :: aposC :: 'a' :: aposC :: ':' :: ' ' :: '1' :: '\x7d' :: [])
    ∧ jsonLoads ('\x7b' :: aposC :: 'a' :: aposC :: ':' :: ' ' :: '1' :: '\x7d' :: []) = none
    ∧ jsonLoads (('\x7b' :: aposC :: 'a' :: aposC :: ':' :: ' ' :: '1' :: '\x7d' :: []).map
        (fun c => if c = aposC then '"' else c)) = some (jobj [("a".data, jnum 1)])
    ∧ parse_comprehensive_response
        ('\x7b' :: aposC :: 'a' :: aposC :: ':' :: ' ' :: '1' :: '\x7d' :: [])
        = jobj [("a".data, jnum 1)] := by
  refine ⟨by decide, by decide, by decide, by decide⟩

theorem alt_model_ne (m : Chars) : alt_model m ≠ m := by
  rcases eq_or_ne m "mistral-large".data with h | h
  · subst h
    decide
  · unfold alt_model
    rw [if_pos h]
    exact fun he => h he.symm

/-- Claim C2: when the primary response parses to an empty (falsy) document,
exactly one fallback invocation is made, with a model different from the
primary one; when the fallback response also parses empty and the raw text
of either attempt is non-empty, the function returns the minimal document
with the single summary field holding at most 1500 characters of the raw
text instead of failing. -/
theorem claim_c2 (tmpl notes model : Chars) (rawOpt altOpt : Option Chars)
    (hfmt : (renderComprehensivePrompt tmpl notes).isSome = true)
    (h1 : jTruthy (parse_comprehensive_response (rawOpt.getD [])) = false)
    (h2 : jTruthy (parse_comprehensive_response (altOpt.getD [])) = false)
    (h3 : (degradedText rawOpt altOpt).isEmpty = false) :
    process_single_patient_comprehensive tmpl notes model (.ok rawOpt) (.ok altOpt)
      = (degradedDoc ((degradedText rawOpt altOpt).take 1500), [model, alt_model model])
    ∧ alt_model model ≠ model
    ∧ ((degradedText rawOpt altOpt).take 1500).length ≤ 1500 := by
  obtain ⟨p, hp⟩ := Option.isSome_iff_exists.mp hfmt
  refine ⟨?_, alt_model_ne model, List.length_take_le _ _⟩
  unfold process_single_patient_comprehensive
  rw [hp]
  simp [h1, h2, h3]

/-- Witness for claim C2 at a concrete input: a primary response with no
JSON at all and a fallback response of SQL NULL. -/
theorem claim_c2_witness :
    (renderComprehensivePrompt "x".data "n".data).isSome = true
    ∧ jTruthy (parse_comprehensive_response ((some "no json".data).getD [])) = false
    ∧ jTruthy (parse_comprehensive_response ((none : Option Chars).getD [])) = false
    ∧ (degradedText (some "no json".data) none).isEmpty = false
    ∧ (process_single_patient_comprehensive "x".data "n".data "m".data
          (.ok (some "no json".data)) (.ok none)
        = (degradedDoc ((degradedText (some "no json".data) none).take 1500),
           ["m".data, alt_model "m".data])
      ∧ alt_model "m".data ≠ "m".data
      ∧ ((degradedText (some "no json".data) none).take 1500).length ≤ 1500) :=
  ⟨by decide, by decide, by decide, by decide,
   claim_c2 "x".data "n".data "m".data (some "no json".data) none
     (by decide) (by decide) (by decide) (by decide)⟩

/-- Top-level keys of a document (the observable shape of a returned dict). -/
def topKeys : JValue → List Chars
  | jobj fs => fs.map (fun p => p.1)
  | _ => []

/-- The JSON text of a fully parsed response that coincides with the
degraded document for the raw text `hello`. -/
def c3FullJson : Chars :=
  "\x7b\"clinical_summary\": \x7b\"clinical_summary\": \"hello\"\x7d\x7d".data

/-- Claim C3 counterexample: the degraded result carries no `error_kind =
DegradedParse` tag.  A degraded run (primary raw text `hello` with no JSON,
fallback call raising) returns a value identical to that of a fully parsed
run whose response is the corresponding JSON — so the caller cannot
distinguish them — and the returned document's only top-level key is
`clinical_summary`; no `error_kind` field exists anywhere in the result. -/
theorem claim_c3_counterexample :
    jTruthy (parse_comprehensive_response "hello".data) = false
    ∧ (process_single_patient_comprehensive "x".data "n".data "m".data
        (.ok (some "hello".data)) (.error ())).1 = degradedDoc "hello".data
    ∧ jTruthy (parse_comprehensive_response c3FullJson) = true
    ∧ parse_comprehensive_response c3FullJson = degradedDoc "hello".data
    ∧ (process_single_patient_comprehensive "x".data "n".data "m".data
        (.ok (some c3FullJson)) (.error ())).1 = degradedDoc "hello".data
    ∧ topKeys (degradedDoc "hello".data) = ["clinical_summary".data] :=
  ⟨by decide, by decide, by decide, by decide, by decide, by decide⟩

/-- Claim C3 (amended): when both the primary and the single fallback-model
attempt yield an empty parsed document and raw text was non-empty, the
degraded single-summary-field document is returned silently — it carries no
degradation tag: its only top-level key is `clinical_summary` and no
`error_kind` key is present — so the caller cannot distinguish it from a
fully parsed document of the same shape. -/
theorem claim_c3_amended (tmpl notes model : Chars) (rawOpt altOpt : Option Chars)
    (hfmt : (renderComprehensivePrompt tmpl notes).isSome = true)
    (h1 : jTruthy (parse_comprehensive_response (rawOpt.getD [])) = false)
    (h2 : jTruthy (parse_comprehensive_response (altOpt.getD [])) = false)
    (h3 : (degradedText rawOpt altOpt).isEmpty = false) :
    (process_single_patient_comprehensive tmpl notes model (.ok rawOpt) (.ok altOpt)).1
      = degradedDoc ((degradedText rawOpt altOpt).take 1500)
    ∧ topKeys (process_single_patient_comprehensive tmpl notes model
        (.ok rawOpt) (.ok altOpt)).1 = ["clinical_summary".data]
    ∧ "error_kind".data ∉ topKeys (process_single_patient_comprehensive tmpl notes model
        (.ok rawOpt) (.ok altOpt)).1 := by
  obtain ⟨p, hp⟩ := Option.isSome_iff_exists.mp hfmt
  have hmain : process_single_patient_comprehensive tmpl notes model (.ok rawOpt) (.ok altOpt)
      = (degradedDoc ((degradedText rawOpt altOpt).take 1500), [model, alt_model model]) := by
    unfold process_single_patient_comprehensive
    rw [hp]
    simp [h1, h2, h3]
  rw [hmain]
  refine ⟨rfl, rfl, ?_⟩
  show "error_kind".data ∉ ["clinical_summary".data]
  decide

/-- Witness for the amended claim C3 at a concrete input. -/
theorem claim_c3_witness :
    (renderComprehensivePrompt "x".data "n".data).isSome = true
    ∧ jTruthy (parse_comprehensive_response ((some "plain text".data).getD [])) = false
    ∧ jTruthy (parse_comprehensive_response ((none : Option Chars).getD [])) = false
    ∧ (degradedText (some "plain text".data) none).isEmpty = false
    ∧ ((process_single_patient_comprehensive "x".data "n".data "m".data
          (.ok (some "plain text".data)) (.ok none)).1
        = degradedDoc ((degradedText (some "plain text".data) none).take 1500)
      ∧ topKeys (process_single_patient_comprehensive "x".data "n".data "m".data
          (.ok (some "plain text".data)) (.ok none)).1 = ["clinical_summary".data]
      ∧ "error_kind".data ∉ topKeys (process_single_patient_comprehensive "x".data "n".data "m".data
          (.ok (some "plain text".data)) (.ok none)).1) :=
  ⟨by decide, by decide, by decide, by decide,
   claim_c3_amended "x".data "n".data "m".data (some "plain text".data) none
     (by decide) (by decide) (by decide) (by decide)⟩

/-- Claim C8: the single-record interactive path never lets an exception
escape — for every input and every oracle behaviour (including raised
exceptions, modelled by the `Except.error` oracles, which the function
absorbs) it returns a value that is either a truthy fully parsed document
(the parse of one of the raw responses), or the degraded single-summary
document capped at 1500 characters, or a falsy typed-failure value. -/
theorem claim_c8 (tmpl notes model : Chars)
    (primary fallbackCall : Except Unit (Option Chars)) :
    (∃ raw, (process_single_patient_comprehensive tmpl notes model primary fallbackCall).1
        = parse_comprehensive_response raw
      ∧ jTruthy (process_single_patient_comprehensive tmpl notes model primary fallbackCall).1
        = true)
    ∨ (∃ t, (process_single_patient_comprehensive tmpl notes model primary fallbackCall).1
        = degradedDoc (List.take 1500 t)
      ∧ (List.take 1500 t).length ≤ 1500)
    ∨ jTruthy (process_single_patient_comprehensive tmpl notes model primary fallbackCall).1
        = false := by
  unfold process_single_patient_comprehensive
  cases hfmt : renderComprehensivePrompt tmpl notes with
  | none => right; right; rfl
  | some p =>
    cases primary with
    | error e => right; right; rfl
    | ok rawOpt =>
      by_cases h1 : jTruthy (parse_comprehensive_response (rawOpt.getD [])) = true
      · left
        exact ⟨rawOpt.getD [], by simp [h1], by simp [h1]⟩
      · rw [Bool.not_eq_true] at h1
        cases fallbackCall with
        | error e =>
          simp only [h1]
          by_cases h3 : (degradedText rawOpt (some [])).isEmpty = false
          · right; left
            refine ⟨degradedText rawOpt (some []), ?_, List.length_take_le _ _⟩
            simp [h1, h3]
          · right; right
            rw [Bool.not_eq_false] at h3
            simp [h1, h3]
        | ok altOpt =>
          by_cases h2 : jTruthy (parse_comprehensive_response (altOpt.getD [])) = true
          · left
            exact ⟨altOpt.getD [], by simp [h1, h2], by simp [h1, h2]⟩
          · rw [Bool.not_eq_true] at h2
            by_cases h3 : (degradedText rawOpt altOpt).isEmpty = false
            · right; left
              refine ⟨degradedText rawOpt altOpt, ?_, List.length_take_le _ _⟩
              simp [h1, h2, h3]
            · right; right
              rw [Bool.not_eq_false] at h3
              simp [h1, h2, h3]

/-- A preview-backend response on which the fallback backend succeeds. -/
def c4SampleJson : JValue :=
  jobj [("results".data, jarr [jobj [("PATIENT_ID".data, jnum 7), ("GENDER".data, jstr ['F'])]])]

/-- Claim C4 counterexample: with a Snowpark connection (`hasattr(conn,
'sql')` true) an exception raised by the native backend propagates out of
`query_cortex_search_service` even though the preview backend would have
succeeded on the same call — there is no transparent retry via the fallback
backend. -/
theorem claim_c4_counterexample :
    query_cortex_search_service true (.error ()) (.ok c4SampleJson) 20 = .error ()
    ∧ (query_cortex_search_service false (.error ()) (.ok c4SampleJson) 20).isOk = true :=
  ⟨by decide, by decide⟩

/-- Claim C4 (amended): the backend is selected once by connection
capability, not by exception-driven retry: with a Snowpark connection the
result depends only on the native backend (the preview oracle is never
consulted) and a native exception propagates to the caller via the
re-raising `except` clause; without a Snowpark connection only the preview
backend is consulted; the page-level caller `search_patients_cortex` catches
the propagated exception and falls back to the basic LIKE text search — not
to the preview backend. -/
theorem claim_c4_amended :
    (∀ n p p2 l, query_cortex_search_service true n p l
      = query_cortex_search_service true n p2 l)
    ∧ (∀ n n2 p l, query_cortex_search_service false n p l
      = query_cortex_search_service false n2 p l)
    ∧ (∀ p l, query_cortex_search_service true (.error ()) p l = .error ())
    ∧ (∀ p l basic, search_patients_cortex true (.error ()) p l basic = basic) :=
  ⟨fun _ _ _ _ => rfl, fun _ _ _ _ => rfl, fun _ _ => rfl, fun _ _ _ => rfl⟩

/-- Claim C7: every row the preview (fallback) backend returns has
RELEVANCE_SCORE null, and the rows are exactly the flattening of the
preview JSON's `results` into the shared normalized `SearchRow` schema
(one `previewRow` per flattened element, capped at the limit). -/
theorem claim_c7 (j : JValue) (limit : ℕ) (native : Except Unit JValue)
    (rows : List SearchRow)
    (h : query_cortex_search_service false native (.ok j) limit = .ok rows) :
    (∀ r ∈ rows, r.relevanceScore = none)
    ∧ rows = ((previewResults j).map previewRow).take limit := by
  unfold query_cortex_search_service at h
  simp only [if_false, Bool.false_eq_true, Except.ok.injEq] at h
  subst h
  refine ⟨?_, rfl⟩
  intro r hr
  have hr2 : r ∈ (previewResults j).map previewRow := List.mem_of_mem_take hr
  obtain ⟨item, _, hitem⟩ := List.mem_map.mp hr2
  rw [← hitem]
  rfl

/-- Witness for claim C7 at a concrete preview response with two result
items and limit 1. -/
theorem claim_c7_witness :
    query_cortex_search_service false (.error ()) (.ok c4SampleJson) 1
      = .ok (((previewResults c4SampleJson).map previewRow).take 1)
    ∧ ((∀ r ∈ (((previewResults c4SampleJson).map previewRow).take 1),
          r.relevanceScore = none)
      ∧ (((previewResults c4SampleJson).map previewRow).take 1)
          = ((previewResults c4SampleJson).map previewRow).take 1) :=
  ⟨by decide,
   claim_c7 c4SampleJson 1 (.error ()) (((previewResults c4SampleJson).map previewRow).take 1)
     (by decide)⟩

/-- The native-backend result item of the C10 counterexample: its only score
key is `RELEVANCE` holding the falsy number 0. -/
def c10Item : JValue := jobj [("PATIENT_ID".data, jnum 7), ("RELEVANCE".data, jnum 0)]

/-- The native-backend response wrapping `c10Item`. -/
def c10Resp : JValue := jobj [("results".data, jarr [c10Item])]

/-- Claim C10 counterexample: an item whose present score key holds the
falsy number 0 is NOT always mapped to a null RELEVANCE_SCORE — the
truthiness chain returns its last operand even when falsy, so the item
`{PATIENT_ID: 7, RELEVANCE: 0}` produces a row with RELEVANCE_SCORE = 0,
refuting both halves of the claim (falsy maps to null; score never 0). -/
theorem claim_c10_counterexample :
    scoreChain c10Item = some (jnum 0)
    ∧ relScoreOf c10Item = some 0
    ∧ query_cortex_search_service true (.ok c10Resp) (.error ()) 20
        = .ok [{ patientId := some 7, patientUid := none, patientTitle := none,
                 age := none, gender := none, relevanceScore := some 0 }] :=
  ⟨by decide, by decide, by decide⟩

/-- Claim C10 (amended): the truthiness chain skips falsy values of the
first three keys (`score`, `SCORE`, `relevance`), but its last operand
`item.get('RELEVANCE')` is returned even when falsy, and is then passed to
`float`; hence a numeric 0 under `RELEVANCE` alone is reported as the score
0, a falsy non-numeric `RELEVANCE` (such as `""`) still yields null because
the conversion raises, and a falsy value under an earlier key alone yields
null — so RELEVANCE_SCORE = 0 is possible. -/
theorem claim_c10_amended (item : JValue)
    (h1 : optTruthy (dictGet item "score".data) = false)
    (h2 : optTruthy (dictGet item "SCORE".data) = false)
    (h3 : optTruthy (dictGet item "relevance".data) = false) :
    relScoreOf item = (dictGet item "RELEVANCE".data).bind pyFloat
    ∧ relScoreOf (jobj [("RELEVANCE".data, jnum 0)]) = some 0
    ∧ relScoreOf (jobj [("RELEVANCE".data, jstr [])]) = none
    ∧ relScoreOf (jobj [("score".data, jnum 0)]) = none := by
  refine ⟨?_, by decide, by decide, by decide⟩
  unfold relScoreOf scoreChain pyOrO
  simp only [h1, h2, h3, Bool.false_eq_true, if_false]
  cases dictGet item "RELEVANCE".data <;> simp

/-- Witness for the amended claim C10 at the concrete item
`{RELEVANCE: 0}`. -/
theorem claim_c10_witness :
    optTruthy (dictGet (jobj [("RELEVANCE".data, jnum 0)]) "score".data) = false
    ∧ optTruthy (dictGet (jobj [("RELEVANCE".data, jnum 0)]) "SCORE".data) = false
    ∧ optTruthy (dictGet (jobj [("RELEVANCE".data, jnum 0)]) "relevance".data) = false
    ∧ (relScoreOf (jobj [("RELEVANCE".data, jnum 0)])
        = (dictGet (jobj [("RELEVANCE".data, jnum 0)]) "RELEVANCE".data).bind pyFloat
      ∧ relScoreOf (jobj [("RELEVANCE".data, jnum 0)]) = some 0
      ∧ relScoreOf (jobj [("RELEVANCE".data, jstr [])]) = none
      ∧ relScoreOf (jobj [("score".data, jnum 0)]) = none) :=
  ⟨by decide, by decide, by decide,
   claim_c10_amended (jobj [("RELEVANCE".data, jnum 0)])
     (by decide) (by decide) (by decide)⟩

/-- Claim C9: in the similar-patients display sort, when every similarity
score converts to a float the items end up in descending score order (each
later item's key is at most each earlier one's) and the result is a
permutation of the input; when any score fails to convert, sorting is
abandoned and the list keeps exactly its original order, with no partial
reordering (CPython's `list.sort` computes all keys before moving any
element, so a raising key leaves the list untouched).  Float scores are
modelled as exact rationals; the non-finite literals `nan`/`inf` are
outside the model. -/
theorem claim_c9 (items : List (Chars × JValue)) :
    ((∀ x ∈ items, (pyFloat x.2).isSome = true) →
      (sort_similar_items items).Pairwise (fun a b => scoreKeyD b ≤ scoreKeyD a)
      ∧ (sort_similar_items items).Perm items)
    ∧ ((∃ x ∈ items, pyFloat x.2 = none) → sort_similar_items items = items) := by
  constructor
  · intro hall
    have hguard : items.all (fun x => (pyFloat x.2).isSome) = true := by
      rw [List.all_eq_true]
      exact hall
    unfold sort_similar_items
    rw [if_pos hguard]
    constructor
    · have hs := @List.sorted_mergeSort (Chars × JValue)
        (fun a b => decide (scoreKeyD b ≤ scoreKeyD a))
        (fun a b c h1 h2 => by
          simp only [decide_eq_true_eq] at h1 h2 ⊢
          exact le_trans h2 h1)
        (fun a b => by
          simp only [Bool.or_eq_true, decide_eq_true_eq]
          exact le_total (scoreKeyD b) (scoreKeyD a))
        items
      simpa using hs
    · exact List.mergeSort_perm items _
  · rintro ⟨x, hx, hnone⟩
    unfold sort_similar_items
    rw [if_neg ?_]
    rw [List.all_eq_true]
    push_neg
    exact ⟨x, hx, by rw [hnone]; decide⟩

/-- Witness for claim C9: both branches at concrete lists — an all-numeric
list gets sorted (descending, as a permutation), a list with one
non-numeric score keeps its original order. -/
theorem claim_c9_witness :
    (∀ x ∈ [("a".data, jnum 1), ("b".data, jnum 3)], (pyFloat x.2).isSome = true)
    ∧ ((sort_similar_items [("a".data, jnum 1), ("b".data, jnum 3)]).Pairwise
          (fun a b => scoreKeyD b ≤ scoreKeyD a)
      ∧ (sort_similar_items [("a".data, jnum 1), ("b".data, jnum 3)]).Perm
          [("a".data, jnum 1), ("b".data, jnum 3)])
    ∧ (∃ x ∈ [("a".data, jnum 1), ("b".data, jstr ['x'])], pyFloat x.2 = none)
    ∧ sort_similar_items [("a".data, jnum 1), ("b".data, jstr ['x'])]
        = [("a".data, jnum 1), ("b".data, jstr ['x'])] :=
  ⟨by decide,
   (claim_c9 [("a".data, jnum 1), ("b".data, jnum 3)]).1 (by decide),
   by decide,
   (claim_c9 [("a".data, jnum 1), ("b".data, jstr ['x'])]).2 (by decide)⟩

theorem skip_append (chunk Z : Chars) (v : Chars) :
    pyFormatS chunk.length (chunk ++ Z) v = pyFormatS 0 Z v := by
  induction chunk with
  | nil => simp
  | cons c chunk ih => simpa [pyFormatS] using ih

theorem expandBraces_pyFormat (t : Chars) (v : Chars) :
    ∀ s, expandBraces t = some s → pyFormatS 0 t v = some s := by
  induction t using expandBraces.induct with
  | case1 => intro s h; simpa [expandBraces, pyFormatS] using h
  | case2 rest ih =>
    intro s h
    simp only [expandBraces, Option.map_eq_some'] at h
    obtain ⟨p', hp', rfl⟩ := h
    simp [pyFormatS, ih p' hp']
  | case3 tail h1 =>
    intro s h
    simp [expandBraces] at h
  | case4 rest ih =>
    intro s h
    simp only [expandBraces, Option.map_eq_some'] at h
    obtain ⟨p', hp', rfl⟩ := h
    simp [pyFormatS, ih p' hp']
  | case5 tail h1 =>
    intro s h
    simp [expandBraces] at h
  | case6 c rest hg1 hc1 hg2 hc2 ih =>
    intro s h
    simp only [expandBraces] at h
    rw [Option.map_eq_some'] at h
    obtain ⟨p', hp', rfl⟩ := h
    have hc1n : c ≠ '{' := hc1
    have hc2n : c ≠ '}' := hc2
    have e : pyFormatS 0 (c :: rest) v = (pyFormatS 0 rest v).map (c :: ·) := by
      simp [pyFormatS, hc1n, hc2n]
    rw [e, ih p' hp']
    rfl

theorem expandBraces_pyFormat_append (pre : Chars) (v : Chars) :
    ∀ p Z, expandBraces pre = some p →
      pyFormatS 0 (pre ++ Z) v = (pyFormatS 0 Z v).map (p ++ ·) := by
  induction pre using expandBraces.induct with
  | case1 =>
    intro p Z h
    simp only [expandBraces, Option.some.injEq] at h
    subst h
    simp
  | case2 rest ih =>
    intro p Z h
    simp only [expandBraces, Option.map_eq_some'] at h
    obtain ⟨p', hp', rfl⟩ := h
    show pyFormatS 0 ('{' :: '{' :: (rest ++ Z)) v = _
    have e : pyFormatS 0 ('{' :: '{' :: (rest ++ Z)) v
        = (pyFormatS 0 (rest ++ Z) v).map ('{' :: ·) := by
      simp [pyFormatS]
    rw [e, ih p' Z hp']
    cases pyFormatS 0 Z v <;> simp
  | case3 tail h1 =>
    intro p Z h
    simp [expandBraces] at h
  | case4 rest ih =>
    intro p Z h
    simp only [expandBraces, Option.map_eq_some'] at h
    obtain ⟨p', hp', rfl⟩ := h
    show pyFormatS 0 ('}' :: '}' :: (rest ++ Z)) v = _
    have e : pyFormatS 0 ('}' :: '}' :: (rest ++ Z)) v
        = (pyFormatS 0 (rest ++ Z) v).map ('}' :: ·) := by
      simp [pyFormatS]
    rw [e, ih p' Z hp']
    cases pyFormatS 0 Z v <;> simp
  | case5 tail h1 =>
    intro p Z h
    simp [expandBraces] at h
  | case6 c rest hg1 hc1 hg2 hc2 ih =>
    intro p Z h
    simp only [expandBraces] at h
    rw [Option.map_eq_some'] at h
    obtain ⟨p', hp', rfl⟩ := h
    show pyFormatS 0 (c :: (rest ++ Z)) v = _
    have hc1n : c ≠ '{' := hc1
    have hc2n : c ≠ '}' := hc2
    have e : pyFormatS 0 (c :: (rest ++ Z)) v
        = (pyFormatS 0 (rest ++ Z) v).map (c :: ·) := by
      simp [pyFormatS, hc1n, hc2n]
    rw [e, ih p' Z hp']
    cases pyFormatS 0 Z v <;> simp

theorem pyFormatS_placeholder (t : Chars) (v : Chars) :
    pyFormatS 0 ('{' :: (phSuffix ++ t)) v
      = (pyFormatS 14 (phSuffix ++ t) v).map (v ++ ·) := by
  simp [pyFormatS, phSuffix, List.isPrefixOf]

/-- Claim C5: prompt rendering truncates the source text to 4000 characters
before substitution, substitutes the single `patient_notes` placeholder
exactly once, and never re-substitutes placeholder-like tokens inside the
inserted text — for any template decomposed around its one placeholder and
any notes (including notes that contain the placeholder themselves), the
rendered prompt is exactly the unescaped prefix, then the first 4000
characters of the notes verbatim, then the unescaped suffix; for notes
longer than 4000 characters the rendered prompt carries exactly their first
4000 characters and not the full text. -/
theorem claim_c5 (pre suf notes : Chars) (p s : Chars)
    (hp : expandBraces pre = some p) (hs : expandBraces suf = some s)
    (hlen : 4000 < notes.length) :
    renderComprehensivePrompt (pre ++ placeholderTok ++ suf) notes
      = some (p ++ notes.take 4000 ++ s)
    ∧ (notes.take 4000).length = 4000
    ∧ notes.take 4000 ≠ notes := by
  refine ⟨?_, ?_, ?_⟩
  · unfold renderComprehensivePrompt pyFormat
    rw [List.append_assoc]
    rw [expandBraces_pyFormat_append pre (notes.take 4000) p (placeholderTok ++ suf) hp]
    have hmid : pyFormatS 0 (placeholderTok ++ suf) (notes.take 4000)
        = some (notes.take 4000 ++ s) := by
      show pyFormatS 0 ('{' :: (phSuffix ++ suf)) (notes.take 4000) = _
      rw [pyFormatS_placeholder suf (notes.take 4000)]
      have hskip : pyFormatS 14 (phSuffix ++ suf) (notes.take 4000)
          = pyFormatS 0 suf (notes.take 4000) := by
        have h14 : (14 : ℕ) = phSuffix.length := rfl
        rw [h14]
        exact skip_append phSuffix suf (notes.take 4000)
      rw [hskip, expandBraces_pyFormat suf (notes.take 4000) s hs]
      rfl
    rw [hmid]
    simp [List.append_assoc]
  · rw [List.length_take]
    omega
  · intro heq
    have hlen2 := congrArg List.length heq
    rw [List.length_take] at hlen2
    omega


/-- Witness for claim C5: a 6000-character note around the concrete template
`A{patient_notes}B` renders to `A`, the first 4000 characters, then `B`. -/
theorem claim_c5_witness :
    expandBraces "A".data = some "A".data
    ∧ expandBraces "B".data = some "B".data
    ∧ 4000 < (List.replicate 6000 'a').length
    ∧ (renderComprehensivePrompt ("A".data ++ placeholderTok ++ "B".data)
          (List.replicate 6000 'a')
        = some ("A".data ++ (List.replicate 6000 'a').take 4000 ++ "B".data)
      ∧ ((List.replicate 6000 'a').take 4000).length = 4000
      ∧ (List.replicate 6000 'a').take 4000 ≠ List.replicate 6000 'a') :=
  ⟨by decide, by decide, by rw [List.length_replicate]; norm_num,
   claim_c5 "A".data "B".data (List.replicate 6000 'a') "A".data "B".data
     (by decide) (by decide) (by rw [List.length_replicate]; norm_num)⟩
